import Mathlib

/-!
Verification of the crawl/queue engine of the link-checker repository.

The definitions below are a shallow embedding of `src/linkChecker.ts`:

* `extractLinks`, `enqueueLoop`, `checkOutcome`, `fetchLoop` / `fetchWithRetry`,
  `runEntry` are direct translations of the corresponding methods of the
  `LinkChecker` class;
* the WHATWG `URL` platform collaborator is modelled by `parseUrl` /
  `urlResolve` on the `scheme://host/path` fragment of URL syntax that the
  theorems exercise; string searching is implemented by structural recursion
  over character lists so that every definition evaluates inside the kernel;
* the event-loop interleaving of `processQueue` and the in-flight
  `checkSingleUrl` tasks is modelled by the small-step relation `Step`:
  each transition is one of the synchronous blocks of the source (a dequeue,
  the synchronous prefix of a spawned check, the continuation of a check
  after its awaited fetch settles, or a `stop()` call).  The relation is
  deliberately more permissive than the real scheduler (any enabled
  transition may fire), so an invariant proved over all `Reach`-able states
  in particular holds on every real schedule.
-/

/-! ## Character-list string utilities -/

/-- Does the second list start with the first? -/
def listStarts : List Char → List Char → Bool
  | [], _ => true
  | _ :: _, [] => false
  | p :: ps, c :: cs => p == c && listStarts ps cs

/-- `String.prototype.startsWith` of JavaScript. -/
def strStarts (s pat : String) : Bool := listStarts pat.toList s.toList

/-- Split at the first occurrence of `sep`: `some (before, after)`, or `none`
when `sep` does not occur. -/
def breakOnSep (sep : List Char) : List Char → Option (List Char × List Char)
  | [] => if sep.isEmpty then some ([], []) else none
  | c :: cs =>
    if listStarts sep (c :: cs) then some ([], (c :: cs).drop sep.length)
    else
      match breakOnSep sep cs with
      | some (pre, post) => some (c :: pre, post)
      | none => none

/-- `String.prototype.includes` of JavaScript. -/
def strIncludes (s pat : String) : Bool :=
  pat.toList.isEmpty || (breakOnSep pat.toList s.toList).isSome

/-! ## Model of the WHATWG `URL` collaborator -/

/-- Parsed absolute URL, on the `scheme://host/path` fragment of URL syntax
used throughout this development.  `host` keeps any port, `path` starts
with a slash. -/
structure Url where
  scheme : String
  host : String
  path : String
deriving Repr, DecidableEq

/-- Scheme syntax: a letter followed by alphanumerics (the schemes exercised
here are `http`, `https`, `httpx`, `mailto`). -/
def validScheme (cs : List Char) : Bool :=
  match cs with
  | [] => false
  | c :: rest => c.isAlpha && rest.all Char.isAlphanum

/-- Models `new URL(s)` on absolute `scheme://host/path` inputs: fails
(`none`, the constructor throws) when there is no `://`, the scheme is
malformed, or the host is empty; a missing path serialises as a single
slash. -/
def parseUrl (s : String) : Option Url :=
  match breakOnSep (("://").toList) s.toList with
  | none => none
  | some (schemeCs, rest) =>
    if validScheme schemeCs then
      match breakOnSep (("/").toList) rest with
      | none => if rest.isEmpty then none else some ⟨⟨schemeCs⟩, ⟨rest⟩, "/"⟩
      | some (hostCs, pathRest) =>
        if hostCs.isEmpty then none
        else some ⟨⟨schemeCs⟩, ⟨hostCs⟩, ⟨[('/')] ++ pathRest⟩⟩
    else none

/-- Serialisation, `url.href` of the platform `URL`. -/
def Url.href (u : Url) : String := u.scheme ++ "://" ++ u.host ++ u.path

/-- Origin of a parsed URL: scheme and host (with port), `url.origin`. -/
def Url.originOf (u : Url) : String := u.scheme ++ "://" ++ u.host

/-- `new URL(s).origin`, `none` when the URL does not parse. -/
def urlOrigin (s : String) : Option String := (parseUrl s).map Url.originOf

/-- Scheme of a URL string, `none` when the URL does not parse. -/
def urlScheme (s : String) : Option String := (parseUrl s).map Url.scheme

/-- Models `new URL(href, base).href`: an absolute href parses on its own; a
path-absolute href (leading slash) resolves against the origin of the base;
every other input fails (`none`).  The platform resolver accepts more
relative forms; those inputs are not used by any theorem below and the
source treats a failed resolution and an unused href alike (dropped). -/
def urlResolve (href base : String) : Option String :=
  match parseUrl href with
  | some u => some u.href
  | none =>
    if strStarts href ("/") then
      (parseUrl base).map (fun b => b.originOf ++ href)
    else none

/-! ## Link extraction (`extractLinks`, src/linkChecker.ts lines 271-286) -/

/-- Translated from `extractLinks`.  `hrefs` stands for the href attributes
cheerio collects from the anchors of the page body, with `""` for a missing
attribute (falsy in the source's first filter).  The source then maps each
surviving href through `new URL(href, baseUrl).href`, keeps it only when the
resolved string starts with the characters `"http"`, and drops the rest. -/
def extractLinks (hrefs : List String) (baseUrl : String) : List String :=
  (hrefs.filter (fun h => !h.toList.isEmpty && !strStarts h ("#"))).filterMap
    (fun h =>
      match urlResolve h baseUrl with
      | some resolved => if strStarts resolved ("http") then some resolved else none
      | none => none)

/-! ## Data model (src/linkChecker.ts lines 6-23, 60-62) -/

/-- Translated from the `BrokenLink` interface. -/
structure BrokenLink where
  url : String
  reason : String
  parentUrl : Option String
deriving Repr, DecidableEq

/-- Element of the work queue (and of the in-flight task set): the anonymous
`{ url, parentUrl?, isRecursive }` record of the source. -/
structure QueueItem where
  url : String
  parentUrl : Option String
  isRecursive : Bool
deriving Repr, DecidableEq

/-- Response as `checkSingleUrl` consumes it: status code, the redirect flag,
the final URL after server redirects (`response.url`), the content-type
header, and the href attributes of the anchors of the body (the `cheerio`
collaborator's reading of `response.text()`). -/
structure Response where
  status : Nat
  redirected : Bool
  url : String
  contentType : String
  body : List String
deriving Repr, DecidableEq

/-- Events of the emitter, one constructor per channel of
`LinkCheckerEvent` (src/events.ts). -/
inductive Event where
  | start (url : String)
  | completed (linksVisited : List String) (brokenLinks : List BrokenLink)
  | stopped
  | linkStart (url : String) (parentUrl : Option String)
  | linkSuccess (url : String) (statusCode : Nat) (parentUrl : Option String)
  | linkRedirect (fromUrl toUrl : String) (parentUrl : Option String)
  | linkError (url : String) (statusCode : Option Nat) (error : Option String)
      (parentUrl : Option String)
  | progress (checked broken : Nat)
  | retryEvent (url : String) (attempt : Nat) (error : String)
      (parentUrl : Option String)
deriving Repr, DecidableEq

/-! ## Fetch with retry (`fetchWithRetry`, src/linkChecker.ts lines 228-269) -/

/-- Observable trace of one `fetchWithRetry` call: how many `fetch` attempts
ran, how many inter-attempt delays were slept, the `retry` events emitted,
and the settled outcome (`.ok` a returned response, `.error` a thrown
message). -/
structure FetchTrace where
  attempts : Nat
  delays : Nat
  retryEvents : List Event
  result : Except String Response
deriving Repr

/-- Translated from the loop of `fetchWithRetry` (lines 232-266).  The
source iterates `i` from 0 while `i < retries`; here the loop counts the
`remaining` iterations down structurally (so that the kernel can evaluate
it) and recovers the source's index as `i = retries - remaining`, the exit
of the `for` loop being `remaining = 0`.  `attempt j` is the network's
answer to the j-th `fetch` call: a response is returned immediately
whatever its status; a thrown transport error is caught, recorded as
`lastError`, and followed by a `retry` event and a delay on every
iteration with `i < retries - 1` (line 254).  Falling out of the loop
throws `lastError`, or the generic message when no attempt ran
(line 268). -/
def fetchLoop (u : String) (attempt : Nat → Except String Response)
    (retries : Nat) : Nat → Option String → FetchTrace
  | 0, lastError =>
    { attempts := 0, delays := 0, retryEvents := [],
      result := Except.error (lastError.getD ("Failed after multiple retries")) }
  | remaining + 1, _ =>
    let i := retries - (remaining + 1)
    match attempt i with
    | Except.ok r => { attempts := 1, delays := 0, retryEvents := [], result := Except.ok r }
    | Except.error e =>
      let rest := fetchLoop u attempt retries remaining (some e)
      if i < retries - 1 then
        { attempts := rest.attempts + 1, delays := rest.delays + 1,
          retryEvents := Event.retryEvent u (i + 1) e none :: rest.retryEvents,
          result := rest.result }
      else
        { attempts := rest.attempts + 1, delays := rest.delays,
          retryEvents := rest.retryEvents, result := rest.result }

/-- `fetchWithRetry(url)`: the loop from iteration 0, i.e. with all
`retries` iterations remaining and no recorded error.  The call site
(line 167) passes no `parentUrl`, so the retry events carry `none`. -/
def fetchWithRetry (u : String) (retries : Nat)
    (attempt : Nat → Except String Response) : FetchTrace :=
  fetchLoop u attempt retries retries none

/-! ## Single-URL check (`checkSingleUrl`, src/linkChecker.ts lines 158-226) -/

/-- Net effect of one `checkSingleUrl` task from the point its awaited fetch
settles: events emitted, broken links appended, queue items pushed. -/
structure CheckResult where
  events : List Event
  broken : List BrokenLink
  enqueues : List QueueItem
deriving Repr, DecidableEq

/-- Translated from the enqueue loop (lines 179-191): `baseOrigin` is
`new URL(url).origin` computed once, each extracted link is pushed unless it
is already visited or ignored, and its `isRecursive` flag compares the
link's origin with `baseOrigin`.  The visited set is read as it stands when
the loop runs; pushing does not mark a link visited. -/
def enqueueLoop (links : List String) (u : String) (visited : List String)
    (ignore : String → Bool) : List QueueItem :=
  links.filterMap (fun link =>
    if link ∈ visited ∨ ignore link = true then none
    else some ⟨link, some u, decide (urlOrigin link = urlOrigin u)⟩)

/-- Translated from the body of `checkSingleUrl` (lines 165-221) given the
settled result of its `fetchWithRetry` call.  A 2xx response emits
`link:success` and, for a recursive item whose content type includes
`text/html`, runs the enqueue loop over the links extracted from the body
with the checked URL `u` as resolution base (line 178 passes `url`, not
`response.url`).  A non-2xx redirected response emits `link:redirect`; any
other response emits `link:error` and appends a status-code broken link; a
thrown error emits `link:error` and appends an error broken link.  The
trailing `progress` event (line 222) reads the instance counters and is
appended by the `resume` transition below. -/
def checkOutcome (u : String) (p : Option String) (isRec : Bool)
    (res : Except String Response) (visited : List String)
    (ignore : String → Bool) : CheckResult :=
  match res with
  | Except.error msg =>
    { events := [Event.linkError u none (some msg) p],
      broken := [⟨u, "Error: " ++ msg, p⟩],
      enqueues := [] }
  | Except.ok resp =>
    if 200 ≤ resp.status ∧ resp.status < 300 then
      { events := [Event.linkSuccess u resp.status p],
        broken := [],
        enqueues :=
          if isRec && strIncludes resp.contentType ("text/html") then
            enqueueLoop (extractLinks resp.body u) u visited ignore
          else [] }
    else if resp.redirected then
      { events := [Event.linkRedirect u resp.url p], broken := [], enqueues := [] }
    else
      { events := [Event.linkError u (some resp.status) none p],
        broken := [⟨u, "Status code: " ++ toString resp.status, p⟩],
        enqueues := [] }

/-! ## Crawl engine state machine (`run`, `stop`, `processQueue`) -/

/-- Mutable instance state of the `LinkChecker` class (lines 55-62), plus the
trace of events emitted so far. -/
structure CheckerState where
  visited : List String
  brokenLinks : List BrokenLink
  queue : List QueueItem
  active : List QueueItem
  isRunning : Bool
  trace : List Event
deriving Repr

/-- Run-wide parameters: the configured concurrency, the ignore filter
(`shouldIgnore`, whose `RegExp` tests are abstracted into a boolean
predicate), and the network, mapping each URL to the settled outcome of its
`fetchWithRetry` call. -/
structure Ctx where
  concurrency : Nat
  ignore : String → Bool
  net : String → Except String Response

/-- Translated from `run` (lines 75-93) up to its first suspension point: on
the error path the exception is thrown before any assignment, so the state
is handed back unchanged next to the message; otherwise all collections are
cleared, `isRunning` is set, `start` is emitted, and the seed is queued as a
recursive item. -/
def runEntry (s : CheckerState) (url : String) : CheckerState × Option String :=
  if s.isRunning then
    (s, some ("Link checker is already running. Call stop() first or create a new instance."))
  else
    ({ visited := [], brokenLinks := [], queue := [⟨url, none, true⟩],
       active := [], isRunning := true,
       trace := s.trace ++ [Event.start url] }, none)

/-- State at the top of `processQueue` for a fresh instance run on `seed`. -/
def initState (seed : String) : CheckerState :=
  { visited := [], brokenLinks := [], queue := [⟨seed, none, true⟩],
    active := [], isRunning := true, trace := [Event.start seed] }

/-- Effect of dequeuing a fresh item (lines 128-147): mark it visited, emit
`link:start` (the synchronous prefix of `checkSingleUrl`), and add the task
to the active set. -/
def spawnState (s : CheckerState) (item : QueueItem) (rest : List QueueItem) :
    CheckerState :=
  { s with queue := rest,
           visited := s.visited ++ [item.url],
           active := s.active ++ [item],
           trace := s.trace ++ [Event.linkStart item.url item.parentUrl] }

/-- Effect of an in-flight task's continuation once its fetch settles: apply
`checkOutcome`, append the `progress` event with the instance counters
(line 222), and drop the task from the active set (the `finally` of
line 140). -/
def resumeState (ctx : Ctx) (s : CheckerState) (item : QueueItem)
    (l₁ l₂ : List QueueItem) : CheckerState :=
  let out := checkOutcome item.url item.parentUrl item.isRecursive
    (ctx.net item.url) s.visited ctx.ignore
  { s with active := l₁ ++ l₂,
           brokenLinks := s.brokenLinks ++ out.broken,
           queue := s.queue ++ out.enqueues,
           trace := s.trace ++ out.events ++
             [Event.progress s.visited.length (s.brokenLinks ++ out.broken).length] }

/-- One synchronous block of the engine.  `dequeueDrop` and `spawn` are the
two branches of the inner dispatch loop (lines 123-148, guarded by running,
a non-empty queue and spare concurrency); `resume` is the continuation of
any in-flight check after its awaited fetch settles (no `isRunning` check:
the source does not re-test the flag after the await); `stopCall` is
`stop()` (lines 110-116). -/
inductive Step (ctx : Ctx) : CheckerState → CheckerState → Prop where
  | dequeueDrop (s : CheckerState) (item : QueueItem) (rest : List QueueItem) :
      s.isRunning = true → s.queue = item :: rest →
      s.active.length < ctx.concurrency →
      (item.url ∈ s.visited ∨ ctx.ignore item.url = true) →
      Step ctx s { s with queue := rest }
  | spawn (s : CheckerState) (item : QueueItem) (rest : List QueueItem) :
      s.isRunning = true → s.queue = item :: rest →
      s.active.length < ctx.concurrency →
      item.url ∉ s.visited → ctx.ignore item.url = false →
      Step ctx s (spawnState s item rest)
  | resume (s : CheckerState) (item : QueueItem) (l₁ l₂ : List QueueItem) :
      s.active = l₁ ++ item :: l₂ →
      Step ctx s (resumeState ctx s item l₁ l₂)
  | stopCall (s : CheckerState) :
      s.isRunning = true →
      Step ctx s { s with isRunning := false, queue := [],
                          trace := s.trace ++ [Event.stopped] }

/-- Reachability along engine steps. -/
def Reach (ctx : Ctx) (s₀ s : CheckerState) : Prop :=
  Relation.ReflTransGen (Step ctx) s₀ s

/-- Number of `link:start` events for `u` in a trace. -/
def countLinkStart (u : String) (tr : List Event) : Nat :=
  (tr.filter (fun e =>
    match e with
    | Event.linkStart v _ => v == u
    | _ => false)).length

/-! ## Spec-side definition for the C2 comparison, and concrete fixtures -/

/-- Stated from the spec sentence under test in C2 (and only from it): the
extracted hrefs are resolved against the response's final URL and each
enqueued link's `isRecursive` flag compares the link's origin with the final
response URL's origin.  `checkOutcome` above is the translation of the code;
this definition exists to be compared against it. -/
def specFinalUrlEnqueues (resp : Response) (checkedUrl : String)
    (visited : List String) (ignore : String → Bool) : List QueueItem :=
  (extractLinks resp.body resp.url).filterMap (fun link =>
    if link ∈ visited ∨ ignore link = true then none
    else some ⟨link, some checkedUrl, decide (urlOrigin link = urlOrigin resp.url)⟩)

/-- Ignore filter of the default configuration: empty pattern list, nothing
matches. -/
def noIgnore : String → Bool := fun _ => false

/-- Concrete seed URL for the witnesses. -/
def seedA : String := "http://a.example/"

/-- Seed queue item pushed by `run` for `seedA`. -/
def itemA : QueueItem := ⟨seedA, none, true⟩

/-- Plain 200 response with no HTML body. -/
def respOkPlain : Response := ⟨200, false, seedA, "", []⟩

/-- A 404 response, not flagged as redirected. -/
def resp404 : Response := ⟨404, false, seedA, "", []⟩

/-- Context whose network answers every fetch with 404. -/
def ctx404 : Ctx := ⟨1, noIgnore, fun _ => Except.ok resp404⟩

/-- Context whose network rejects every fetch with a transport error. -/
def ctxFail : Ctx := ⟨1, noIgnore, fun _ => Except.error ("net down")⟩

/-- Redirected 2xx HTML response: requested under one origin, final URL on
another, body holding one path-absolute link. -/
def respC2 : Response := ⟨200, true, "http://b.example/page", "text/html", ["/x"]⟩

/-- 200 HTML page whose body repeats the same href twice. -/
def respC3 : Response :=
  ⟨200, false, "http://s.example/", "text/html",
   ["http://t.example/x", "http://t.example/x"]⟩

/-- State after the engine dequeues the seed and spawns its check. -/
def stSpawnA : CheckerState := spawnState (initState seedA) itemA []

/-- State after the seed's check resumes against the 404 network. -/
def stResume404 : CheckerState := resumeState ctx404 stSpawnA itemA [] []

/-- Constant transport-error message used by the retry witnesses. -/
def msgsB : Nat → String := fun _ => "boom"

/-! ## Invariants of the engine -/

/-- Broken links appended by a check always carry the checked URL. -/
theorem checkOutcome_broken_url (u : String) (p : Option String) (isRec : Bool)
    (res : Except String Response) (visited : List String) (ignore : String → Bool) :
    ∀ b ∈ (checkOutcome u p isRec res visited ignore).broken, b.url = u := by
  intro b hb
  cases res with
  | error msg =>
    simp [checkOutcome] at hb
    subst hb
    rfl
  | ok resp =>
    by_cases h2 : 200 ≤ resp.status ∧ resp.status < 300
    · simp [checkOutcome, h2] at hb
    · by_cases hr : resp.redirected
      · simp [checkOutcome, h2, hr] at hb
      · simp [checkOutcome, h2, hr] at hb
        subst hb
        rfl

/-- A check's continuation never emits `link:start`. -/
theorem checkOutcome_no_linkStart (w u : String) (p : Option String) (isRec : Bool)
    (res : Except String Response) (visited : List String) (ignore : String → Bool) :
    countLinkStart w (checkOutcome u p isRec res visited ignore).events = 0 := by
  cases res with
  | error msg => simp [checkOutcome, countLinkStart]
  | ok resp =>
    by_cases h2 : 200 ≤ resp.status ∧ resp.status < 300
    · simp [checkOutcome, h2, countLinkStart]
    · by_cases hr : resp.redirected <;>
        simp [checkOutcome, h2, hr, countLinkStart]

theorem countLinkStart_append (u : String) (t₁ t₂ : List Event) :
    countLinkStart u (t₁ ++ t₂) = countLinkStart u t₁ + countLinkStart u t₂ := by
  simp [countLinkStart, List.filter_append]

/-- Invariant bundle maintained by every transition: the visited list never
holds duplicates, every in-flight task's URL is already visited, the active
set is bounded by the configured concurrency, every recorded broken link's
URL is visited, and the trace holds exactly one `link:start` per visited URL
and none for any other URL. -/
structure EngineInv (ctx : Ctx) (s : CheckerState) : Prop where
  visitedNodup : s.visited.Nodup
  activeVisited : ∀ t ∈ s.active, t.url ∈ s.visited
  activeBound : s.active.length ≤ ctx.concurrency
  brokenVisited : ∀ b ∈ s.brokenLinks, b.url ∈ s.visited
  startCount : ∀ u, countLinkStart u s.trace = if u ∈ s.visited then 1 else 0

theorem inv_init (ctx : Ctx) (seed : String) : EngineInv ctx (initState seed) := by
  refine ⟨?_, ?_, ?_, ?_, ?_⟩
  · simp [initState]
  · simp [initState]
  · simp [initState]
  · simp [initState]
  · intro u
    simp [initState, countLinkStart]

theorem inv_step (ctx : Ctx) (s s' : CheckerState) (hinv : EngineInv ctx s)
    (hs : Step ctx s s') : EngineInv ctx s' := by
  obtain ⟨nd, av, ab, bv, sc⟩ := hinv
  cases hs with
  | dequeueDrop item rest hrun hq hlen hvis =>
    exact ⟨nd, av, ab, bv, sc⟩
  | spawn item rest hrun hq hlen hnv hni =>
    refine ⟨?_, ?_, ?_, ?_, ?_⟩
    · show (s.visited ++ [item.url]).Nodup
      simp [List.nodup_append, nd, hnv]
    · intro t ht
      show t.url ∈ s.visited ++ [item.url]
      rcases List.mem_append.mp ht with ht | ht
      · exact List.mem_append_left _ (av t ht)
      · rw [List.mem_singleton.mp ht]
        exact List.mem_append_right _ (List.mem_singleton.mpr rfl)
    · show (s.active ++ [item]).length ≤ ctx.concurrency
      simp
      omega
    · intro b hb
      exact List.mem_append_left _ (bv b hb)
    · intro u
      show countLinkStart u (s.trace ++ [Event.linkStart item.url item.parentUrl])
          = if u ∈ s.visited ++ [item.url] then 1 else 0
      rw [countLinkStart_append, sc u]
      by_cases he : item.url = u
      · subst he
        have hmem : item.url ∈ s.visited ++ [item.url] :=
          List.mem_append_right _ (List.mem_singleton.mpr rfl)
        simp [countLinkStart, hnv, hmem]
      · have hne : (u ∈ s.visited ++ [item.url]) ↔ u ∈ s.visited := by
          simp [List.mem_append]
          intro hu
          exact absurd hu.symm he
        have hz : countLinkStart u [Event.linkStart item.url item.parentUrl] = 0 := by
          simp [countLinkStart, he]
        rw [hz]
        by_cases hu : u ∈ s.visited
        · simp [hu, hne.mpr hu]
        · have hu2 : u ∉ s.visited ++ [item.url] := fun hx => hu (hne.mp hx)
          simp [hu, hu2]
  | resume item l₁ l₂ hact =>
    refine ⟨nd, ?_, ?_, ?_, ?_⟩
    · intro t ht
      apply av
      rw [hact]
      rcases List.mem_append.mp ht with ht | ht
      · exact List.mem_append_left _ ht
      · exact List.mem_append_right _ (List.mem_cons_of_mem _ ht)
    · show (l₁ ++ l₂).length ≤ ctx.concurrency
      have := ab
      rw [hact] at this
      simp at this ⊢
      omega
    · intro b hb
      rcases List.mem_append.mp hb with hb | hb
      · exact bv b hb
      · have hurl := checkOutcome_broken_url item.url item.parentUrl item.isRecursive
          (ctx.net item.url) s.visited ctx.ignore b hb
        rw [hurl]
        apply av
        rw [hact]
        exact List.mem_append_right _ (List.mem_cons_self _ _)
    · intro u
      show countLinkStart u (s.trace ++ _ ++ [Event.progress _ _])
          = if u ∈ s.visited then 1 else 0
      rw [countLinkStart_append, countLinkStart_append,
        checkOutcome_no_linkStart]
      have hz : countLinkStart u
          [Event.progress s.visited.length
            (s.brokenLinks ++ (checkOutcome item.url item.parentUrl item.isRecursive
              (ctx.net item.url) s.visited ctx.ignore).broken).length] = 0 := by
        simp [countLinkStart]
      rw [hz, sc u]
      omega
  | stopCall hrun =>
    refine ⟨nd, av, ab, bv, ?_⟩
    intro u
    show countLinkStart u (s.trace ++ [Event.stopped])
        = if u ∈ s.visited then 1 else 0
    rw [countLinkStart_append, sc u]
    have hz : countLinkStart u [Event.stopped] = 0 := by simp [countLinkStart]
    rw [hz]
    omega

theorem inv_reach (ctx : Ctx) (seed : String) (s : CheckerState)
    (h : Reach ctx (initState seed) s) : EngineInv ctx s := by
  induction h with
  | refl => exact inv_init ctx seed
  | tail _ hstep ih => exact inv_step ctx _ _ ih hstep

/-- No transition ever removes a URL from the visited set. -/
theorem step_visited_mono (ctx : Ctx) (s s' : CheckerState) (hs : Step ctx s s') :
    ∀ u ∈ s.visited, u ∈ s'.visited := by
  intro u hu
  cases hs with
  | dequeueDrop item rest hrun hq hlen hvis => exact hu
  | spawn item rest hrun hq hlen hnv hni => exact List.mem_append_left _ hu
  | resume item l₁ l₂ hact => exact hu
  | stopCall hrun => exact hu

/-! ## Sanity checks of the URL collaborator model -/

example : parseUrl ("http://a.example/page") = some ⟨"http", "a.example", "/page"⟩ := by decide

example : urlResolve ("/x") ("http://a.example/page") = some ("http://a.example/x") := by decide

example : urlResolve ("http://") ("http://a.example/") = none := by decide

example : extractLinks [("#top"), (""), ("/x"), ("mailto://someone")] ("http://a.example/page")
    = [("http://a.example/x")] := by decide

/-! ## Behaviour of the retry loop -/

/-- With every attempt failing, a run of the loop with `n` of the configured
`retries` iterations left (`1 ≤ n ≤ retries`) performs exactly `n` attempts
and `n - 1` delays, and propagates the message of the final attempt, whose
index is `retries - 1`. -/
theorem fetchLoop_allError (u : String) (msgs : Nat → String) (retries : Nat) :
    ∀ n le, 1 ≤ n → n ≤ retries →
      (fetchLoop u (fun j => Except.error (msgs j)) retries n le).attempts = n ∧
      (fetchLoop u (fun j => Except.error (msgs j)) retries n le).delays = n - 1 ∧
      (fetchLoop u (fun j => Except.error (msgs j)) retries n le).result
        = Except.error (msgs (retries - 1)) := by
  intro n
  induction n with
  | zero => intro le h1 _; omega
  | succ m ih =>
    intro le _ hle
    rcases Nat.eq_zero_or_pos m with hm | hm
    · subst hm
      have hguard : ¬ retries - (0 + 1) < retries - 1 := by omega
      have hidx : retries - (0 + 1) = retries - 1 := by omega
      simp [fetchLoop, hguard, hidx]
    · have hguard : retries - (m + 1) < retries - 1 := by omega
      obtain ⟨ha, hd, hres⟩ :=
        ih (some (msgs (retries - (m + 1)))) hm (Nat.le_of_succ_le hle)
      simp only [fetchLoop, hguard, if_true]
      refine ⟨?_, ?_, ?_⟩
      · rw [ha]
      · rw [hd]; omega
      · exact hres

/-! ## C5 — retry exhaustion -/

/-- C5: when every fetch attempt throws, `fetchWithRetry` performs exactly
`retries` attempts with `retries - 1` inter-attempt delays, and the check
then records the URL broken with reason `"Error: "` followed by the last
attempt's message. -/
theorem C5_retry_exhaustion (u : String) (p : Option String) (isRec : Bool)
    (visited : List String) (ignore : String → Bool)
    (retries : Nat) (msgs : Nat → String) (h : 1 ≤ retries) :
    (fetchWithRetry u retries (fun j => Except.error (msgs j))).attempts = retries ∧
    (fetchWithRetry u retries (fun j => Except.error (msgs j))).delays = retries - 1 ∧
    (fetchWithRetry u retries (fun j => Except.error (msgs j))).result
      = Except.error (msgs (retries - 1)) ∧
    (checkOutcome u p isRec
        (fetchWithRetry u retries (fun j => Except.error (msgs j))).result
        visited ignore).broken
      = [⟨u, "Error: " ++ msgs (retries - 1), p⟩] := by
  obtain ⟨ha, hd, hres⟩ := fetchLoop_allError u msgs retries retries none h le_rfl
  refine ⟨ha, hd, hres, ?_⟩
  rw [show (fetchWithRetry u retries (fun j => Except.error (msgs j))).result
      = Except.error (msgs (retries - 1)) from hres]
  rfl

/-- Witness for C5 at `retries = 2`. -/
theorem C5_witness :
    (fetchWithRetry seedA 2 (fun j => Except.error (msgsB j))).attempts = 2 ∧
    (fetchWithRetry seedA 2 (fun j => Except.error (msgsB j))).delays = 2 - 1 ∧
    (fetchWithRetry seedA 2 (fun j => Except.error (msgsB j))).result
      = Except.error (msgsB (2 - 1)) ∧
    (checkOutcome seedA none true
        (fetchWithRetry seedA 2 (fun j => Except.error (msgsB j))).result
        [] noIgnore).broken
      = [⟨seedA, "Error: " ++ msgsB (2 - 1), none⟩] :=
  C5_retry_exhaustion seedA none true [] noIgnore 2 msgsB (by decide)

/-! ## C6 — minimum number of attempts -/

/-- C6 fails on the code: with `retries = 0` the loop body never runs, no
fetch attempt is performed, and the call fails with the generic message. -/
theorem C6_counterexample :
    ¬ 1 ≤ (fetchWithRetry seedA 0 (fun _ => Except.ok respOkPlain)).attempts ∧
    (fetchWithRetry seedA 0 (fun _ => Except.ok respOkPlain)).result
      = Except.error ("Failed after multiple retries") := by
  exact ⟨by decide, rfl⟩

/-- C6 amended: at least one attempt is performed whenever the configured
`retries` is at least 1; the code has no floor lifting `retries = 0` to one
attempt. -/
theorem C6_amended_at_least_one_attempt (u : String) (retries : Nat)
    (attempt : Nat → Except String Response) (h : 1 ≤ retries) :
    1 ≤ (fetchWithRetry u retries attempt).attempts := by
  cases retries with
  | zero => omega
  | succ m =>
    show 1 ≤ (fetchLoop u attempt (m + 1) (m + 1) none).attempts
    simp only [fetchLoop, Nat.sub_self]
    cases hA : attempt 0 with
    | ok r => simp [hA]
    | error e =>
      simp only [hA]
      split <;> simp

/-- Witness for the amended C6 at `retries = 1`. -/
theorem C6_amended_witness :
    1 ≤ (fetchWithRetry seedA 1 (fun j => Except.error (msgsB j))).attempts :=
  C6_amended_at_least_one_attempt seedA 1 (fun j => Except.error (msgsB j)) (by decide)

/-! ## C7 — non-2xx responses -/

/-- C7: a response outside [200,300) is returned by `fetchWithRetry` after a
single attempt with no delay and no retry event (responses are never
retried); the check then emits a redirect notification and records nothing
broken when the redirect flag is set, and otherwise appends a broken link
whose reason is exactly `"Status code: <n>"`. -/
theorem C7_non2xx_handling (u : String) (p : Option String) (isRec : Bool)
    (resp : Response) (visited : List String) (ignore : String → Bool)
    (retries : Nat) (attempt : Nat → Except String Response)
    (hst : resp.status < 200 ∨ 300 ≤ resp.status)
    (hfirst : attempt 0 = Except.ok resp) (hr : 1 ≤ retries) :
    fetchWithRetry u retries attempt
      = { attempts := 1, delays := 0, retryEvents := [], result := Except.ok resp } ∧
    (resp.redirected = true →
      (checkOutcome u p isRec (Except.ok resp) visited ignore).events
          = [Event.linkRedirect u resp.url p] ∧
      (checkOutcome u p isRec (Except.ok resp) visited ignore).broken = []) ∧
    (resp.redirected = false →
      (checkOutcome u p isRec (Except.ok resp) visited ignore).events
          = [Event.linkError u (some resp.status) none p] ∧
      (checkOutcome u p isRec (Except.ok resp) visited ignore).broken
          = [⟨u, "Status code: " ++ toString resp.status, p⟩]) := by
  have h2 : ¬ (200 ≤ resp.status ∧ resp.status < 300) := by omega
  refine ⟨?_, ?_, ?_⟩
  · cases retries with
    | zero => omega
    | succ m =>
      show fetchLoop u attempt (m + 1) (m + 1) none = _
      simp only [fetchLoop, Nat.sub_self]
      rw [hfirst]
  · intro hred
    constructor <;> simp [checkOutcome, h2, hred]
  · intro hred
    constructor <;> simp [checkOutcome, h2, hred]

/-- Witness for C7: a 404 response on the first attempt with `retries = 3`. -/
theorem C7_witness :
    fetchWithRetry seedA 3 (fun _ => Except.ok resp404)
      = { attempts := 1, delays := 0, retryEvents := [], result := Except.ok resp404 } ∧
    (resp404.redirected = true →
      (checkOutcome seedA none true (Except.ok resp404) [] noIgnore).events
          = [Event.linkRedirect seedA resp404.url none] ∧
      (checkOutcome seedA none true (Except.ok resp404) [] noIgnore).broken = []) ∧
    (resp404.redirected = false →
      (checkOutcome seedA none true (Except.ok resp404) [] noIgnore).events
          = [Event.linkError seedA (some resp404.status) none none] ∧
      (checkOutcome seedA none true (Except.ok resp404) [] noIgnore).broken
          = [⟨seedA, "Status code: " ++ toString resp404.status, none⟩]) :=
  C7_non2xx_handling seedA none true resp404 [] noIgnore 3 (fun _ => Except.ok resp404)
    (by decide) rfl (by decide)

/-! ## C8 — reentrancy of `run` -/

/-- C8: calling `run` while a run is in progress throws immediately, before
any assignment, so the whole instance state (visited set, broken-link list,
queue, active set, `isRunning`) is left exactly as it was. -/
theorem C8_reentrancy_rejected (s : CheckerState) (u : String)
    (h : s.isRunning = true) :
    runEntry s u =
      (s, some ("Link checker is already running. Call stop() first or create a new instance.")) := by
  simp [runEntry, h]

/-- Witness for C8: a second `run` against a freshly started state. -/
theorem C8_witness :
    runEntry (initState seedA) ("http://c.example/") =
      (initState seedA,
       some ("Link checker is already running. Call stop() first or create a new instance.")) :=
  C8_reentrancy_rejected (initState seedA) ("http://c.example/") rfl

/-! ## C9 — link extraction filters -/

/-- C9 fails on the code: the scheme test is the string test
`resolvedUrl.startsWith("http")`, so a URL of scheme `httpx` — neither
`http` nor `https` — is accepted by `extractLinks`. -/
theorem C9_counterexample :
    ¬ (∀ r ∈ extractLinks [("httpx://evil.example/x")] ("http://a.example/"),
        urlScheme r = some ("http") ∨ urlScheme r = some ("https")) := by decide

/-- C9 amended: extraction rejects fragment-only hrefs and hrefs that fail
resolution, and every accepted output is the resolution of some surviving
href and starts with the characters `"http"` — which admits `http` and
`https` but also any other scheme extending that prefix string, such as
`httpx`. -/
theorem C9_amended_extraction (hrefs rest : List String) (base h₀ : String) :
    (strStarts h₀ ("#") = true →
        extractLinks (h₀ :: rest) base = extractLinks rest base) ∧
    (urlResolve h₀ base = none →
        extractLinks (h₀ :: rest) base = extractLinks rest base) ∧
    (∀ r ∈ extractLinks hrefs base,
        strStarts r ("http") = true ∧
        ∃ h₁ ∈ hrefs, ¬ strStarts h₁ ("#") = true ∧ urlResolve h₁ base = some r) := by
  refine ⟨?_, ?_, ?_⟩
  · intro hh
    simp [extractLinks, hh]
  · intro hres
    by_cases he : h₀.data = []
    · simp [extractLinks, List.filter_cons, he]
    · by_cases hfr : strStarts h₀ ("#") = true
      · simp [extractLinks, List.filter_cons, he, hfr]
      · simp [extractLinks, List.filter_cons, List.filterMap_cons, he, hfr, hres]
  · intro r hr
    obtain ⟨h₁, hmem, heq⟩ := List.mem_filterMap.mp hr
    obtain ⟨hin, hcond⟩ := List.mem_filter.mp hmem
    refine ?_
    cases hres : urlResolve h₁ base with
    | none => rw [hres] at heq; simp at heq
    | some resolved =>
      rw [hres] at heq
      have heq2 : (if strStarts resolved ("http") = true then some resolved else none)
          = some r := heq
      by_cases hh : strStarts resolved ("http") = true
      · rw [if_pos hh] at heq2
        obtain rfl : resolved = r := by simpa using heq2
        refine ⟨hh, h₁, hin, ?_, hres⟩
        intro hfrag
        simp [hfrag] at hcond
      · rw [if_neg hh] at heq2
        simp at heq2

/-! ## C1 — visited-set discipline -/

/-- C1: along any run, after any engine transition the URL of every
in-flight check is already in the visited set (the mark happens in the same
synchronous block that spawns the check, before its first suspension), the
visited set never holds a URL twice, and no transition removes a visited
URL. -/
theorem C1_visited_set_discipline (ctx : Ctx) (seed : String)
    (s s' : CheckerState) (hr : Reach ctx (initState seed) s)
    (hs : Step ctx s s') :
    (∀ t ∈ s'.active, t.url ∈ s'.visited) ∧
    s'.visited.Nodup ∧
    (∀ u ∈ s.visited, u ∈ s'.visited) := by
  have hinv := inv_step ctx s s' (inv_reach ctx seed s hr) hs
  exact ⟨hinv.activeVisited, hinv.visitedNodup, step_visited_mono ctx s s' hs⟩

/-- Witness for C1: the very first transition of a run, spawning the check
of the seed. -/
theorem C1_witness :
    (∀ t ∈ stSpawnA.active, t.url ∈ stSpawnA.visited) ∧
    stSpawnA.visited.Nodup ∧
    (∀ u ∈ (initState seedA).visited, u ∈ stSpawnA.visited) :=
  C1_visited_set_discipline ctxFail seedA (initState seedA) stSpawnA
    Relation.ReflTransGen.refl
    (Step.spawn (initState seedA) itemA [] rfl rfl (by decide) (by decide) rfl)

/-! ## C4 — concurrency bound -/

/-- C4: in every reachable state, and after every transition from it — in
particular at every state in which a `link:start` notification has just
been emitted — the number of in-flight checks is at most the configured
concurrency. -/
theorem C4_concurrency_bound (ctx : Ctx) (seed : String)
    (s s' : CheckerState) (hc : 1 ≤ ctx.concurrency)
    (hr : Reach ctx (initState seed) s) (hs : Step ctx s s') :
    s.active.length ≤ ctx.concurrency ∧
    s'.active.length ≤ ctx.concurrency :=
  ⟨(inv_reach ctx seed s hr).activeBound,
   (inv_step ctx s s' (inv_reach ctx seed s hr) hs).activeBound⟩

/-- Witness for C4: the spawn of the seed check under concurrency 1. -/
theorem C4_witness :
    (initState seedA).active.length ≤ ctx404.concurrency ∧
    stSpawnA.active.length ≤ ctx404.concurrency :=
  C4_concurrency_bound ctx404 seedA (initState seedA) stSpawnA (by decide)
    Relation.ReflTransGen.refl
    (Step.spawn (initState seedA) itemA [] rfl rfl (by decide) (by decide) rfl)

/-! ## C10 — broken links are visited -/

/-- C10: in every reachable state, the URL of every recorded broken link is
in the visited set (hence in the `linksVisited` list the run returns). -/
theorem C10_broken_subset_visited (ctx : Ctx) (seed : String)
    (s : CheckerState) (hr : Reach ctx (initState seed) s) :
    ∀ b ∈ s.brokenLinks, b.url ∈ s.visited :=
  (inv_reach ctx seed s hr).brokenVisited

/-- Witness for C10: the two-transition run that checks the seed against a
404 network reaches a state whose broken-link list holds the seed's 404
entry, and that entry's URL is in the visited set. -/
theorem C10_witness :
    (⟨seedA, ("Status code: 404"), none⟩ : BrokenLink).url ∈ stResume404.visited :=
  C10_broken_subset_visited ctx404 seedA stResume404
    (Relation.ReflTransGen.tail
      (Relation.ReflTransGen.tail Relation.ReflTransGen.refl
        (Step.spawn (initState seedA) itemA [] rfl rfl (by decide) (by decide) rfl))
      (Step.resume stSpawnA itemA [] [] rfl))
    ⟨seedA, ("Status code: 404"), none⟩ (by decide)

/-! ## Structure of the enqueue loop -/

/-- Every item pushed by the enqueue loop takes its URL from the link list,
its parent from the checked URL, its flag from the origin comparison with
the checked URL, and passed both filters. -/
theorem enqueueLoop_mem (links : List String) (u : String)
    (visited : List String) (ignore : String → Bool) (item : QueueItem)
    (h : item ∈ enqueueLoop links u visited ignore) :
    item.url ∈ links ∧ item.parentUrl = some u ∧
    item.isRecursive = decide (urlOrigin item.url = urlOrigin u) ∧
    item.url ∉ visited ∧ ignore item.url = false := by
  unfold enqueueLoop at h
  obtain ⟨link, hlink, heq⟩ := List.mem_filterMap.mp h
  by_cases hc : link ∈ visited ∨ ignore link = true
  · rw [if_pos hc] at heq
    exact absurd heq (by simp)
  · rw [if_neg hc] at heq
    have hmk : (⟨link, some u, decide (urlOrigin link = urlOrigin u)⟩ : QueueItem) = item :=
      Option.some.inj heq
    subst hmk
    push_neg at hc
    exact ⟨hlink, rfl, rfl, hc.1, by simpa using hc.2⟩

/-- The URLs pushed by the enqueue loop are exactly the links surviving the
visited and ignore filters, in order and with multiplicity. -/
theorem enqueueLoop_map_url (links : List String) (u : String)
    (visited : List String) (ignore : String → Bool) :
    (enqueueLoop links u visited ignore).map QueueItem.url
      = links.filter (fun l => !(decide (l ∈ visited) || ignore l)) := by
  induction links with
  | nil => rfl
  | cons l ls ih =>
    by_cases hc : l ∈ visited ∨ ignore l = true
    · have hb : (!(decide (l ∈ visited) || ignore l)) = false := by
        rcases hc with hc | hc <;> simp [hc]
      simp only [enqueueLoop, List.filterMap_cons, if_pos hc, List.filter_cons, hb]
      exact ih
    · have hb : (!(decide (l ∈ visited) || ignore l)) = true := by
        push_neg at hc
        simp [hc.1, hc.2]
      simp only [enqueueLoop, List.filterMap_cons, if_neg hc, List.filter_cons, hb,
        List.map_cons, if_true]
      exact congrArg (l :: ·) ih

/-! ## C2 — resolution base after redirects -/

/-- C2 fails on the code: for a redirected 2xx HTML response the code
resolves the extracted hrefs and computes the origin comparison against the
*requested* URL (line 178 passes `url` and line 179 reads
`new URL(url).origin`), not against the final response URL described by the
spec: on a page requested as `http://a.example/page` whose final URL is
`http://b.example/page`, the link `/x` is enqueued as `http://a.example/x`,
not as the spec's `http://b.example/x`. -/
theorem C2_counterexample :
    (checkOutcome ("http://a.example/page") none true (Except.ok respC2)
        [("http://a.example/page")] noIgnore).enqueues
      ≠ specFinalUrlEnqueues respC2 ("http://a.example/page")
          [("http://a.example/page")] noIgnore := by decide

/-- C2 amended: extracted hrefs are resolved against the *requested* URL of
the item under check, each enqueued link's parent is that URL and its
`isRecursive` flag compares the link's origin with that URL's origin; the
final response URL plays no part in the enqueue computation. -/
theorem C2_amended_request_url_base (u : String) (p : Option String)
    (resp : Response) (visited : List String) (ignore : String → Bool)
    (h2 : 200 ≤ resp.status ∧ resp.status < 300) :
    (∀ item ∈ (checkOutcome u p true (Except.ok resp) visited ignore).enqueues,
        item.url ∈ extractLinks resp.body u ∧
        item.parentUrl = some u ∧
        item.isRecursive = decide (urlOrigin item.url = urlOrigin u)) ∧
    (∀ v : String,
        (checkOutcome u p true (Except.ok {resp with url := v}) visited ignore).enqueues
          = (checkOutcome u p true (Except.ok resp) visited ignore).enqueues) := by
  constructor
  · intro item hitem
    have hitem2 : item ∈
        (if strIncludes resp.contentType ("text/html") then
          enqueueLoop (extractLinks resp.body u) u visited ignore
        else []) := by
      simpa [checkOutcome, h2] using hitem
    by_cases hhtml : strIncludes resp.contentType ("text/html") = true
    · rw [if_pos hhtml] at hitem2
      obtain ⟨h1, h2, h3, _, _⟩ := enqueueLoop_mem _ _ _ _ _ hitem2
      exact ⟨h1, h2, h3⟩
    · rw [if_neg hhtml] at hitem2
      exact absurd hitem2 (List.not_mem_nil item)
  · intro v
    simp [checkOutcome, h2]

/-- Witness for the amended C2 on the redirected response `respC2`. -/
theorem C2_amended_witness :
    (∀ item ∈ (checkOutcome ("http://a.example/page") none true (Except.ok respC2)
        [] noIgnore).enqueues,
        item.url ∈ extractLinks respC2.body ("http://a.example/page") ∧
        item.parentUrl = some ("http://a.example/page") ∧
        item.isRecursive
          = decide (urlOrigin item.url = urlOrigin ("http://a.example/page"))) ∧
    (∀ v : String,
        (checkOutcome ("http://a.example/page") none true
            (Except.ok {respC2 with url := v}) [] noIgnore).enqueues
          = (checkOutcome ("http://a.example/page") none true (Except.ok respC2)
              [] noIgnore).enqueues) :=
  C2_amended_request_url_base ("http://a.example/page") none respC2 [] noIgnore
    (by decide)

/-! ## C3 — duplicate hrefs on one page -/

/-- C3 fails on the code: the enqueue-time filter consults only the visited
set, which a push does not update, so a page whose body holds the same
href twice pushes *two* queue entries for it, not one. -/
theorem C3_counterexample :
    ¬ ((checkOutcome ("http://s.example/") none true (Except.ok respC3)
          [("http://s.example/")] noIgnore).enqueues.map QueueItem.url).count
        ("http://t.example/x") = 1 ∧
    ((checkOutcome ("http://s.example/") none true (Except.ok respC3)
          [("http://s.example/")] noIgnore).enqueues.map QueueItem.url).count
        ("http://t.example/x") = 2 := by
  exact ⟨by decide, by decide⟩

/-- C3 amended: along any run a URL receives at most one `link:start` (one
check) and appears at most once in the visited set, but a page that is not
yet visited and not ignored is enqueued once per occurrence of its href in
the processed body — the dequeue-time visited test, not the enqueue filter,
is what collapses the duplicates to a single check. -/
theorem C3_amended_dedup (ctx : Ctx) (seed : String) (s : CheckerState)
    (hr : Reach ctx (initState seed) s)
    (u t : String) (p : Option String) (resp : Response)
    (visited : List String) (ignore : String → Bool)
    (h2 : 200 ≤ resp.status ∧ resp.status < 300)
    (hhtml : strIncludes resp.contentType ("text/html") = true)
    (hnv : t ∉ visited) (hni : ignore t = false) :
    countLinkStart t s.trace ≤ 1 ∧
    s.visited.count t ≤ 1 ∧
    ((checkOutcome u p true (Except.ok resp) visited ignore).enqueues.map
        QueueItem.url).count t
      = (extractLinks resp.body u).count t := by
  have hinv := inv_reach ctx seed s hr
  refine ⟨?_, ?_, ?_⟩
  · rw [hinv.startCount t]
    split <;> omega
  · exact List.nodup_iff_count_le_one.mp hinv.visitedNodup t
  · have henq : (checkOutcome u p true (Except.ok resp) visited ignore).enqueues
        = enqueueLoop (extractLinks resp.body u) u visited ignore := by
      simp [checkOutcome, h2, hhtml]
    rw [henq, enqueueLoop_map_url]
    exact List.count_filter (by simp [hnv, hni])

/-- Witness for the amended C3: the duplicate-href page `respC3` processed
at the initial state of a run. -/
theorem C3_amended_witness :
    countLinkStart ("http://t.example/x") (initState seedA).trace ≤ 1 ∧
    (initState seedA).visited.count ("http://t.example/x") ≤ 1 ∧
    ((checkOutcome ("http://s.example/") none true (Except.ok respC3)
        [("http://s.example/")] noIgnore).enqueues.map QueueItem.url).count
      ("http://t.example/x")
      = (extractLinks respC3.body ("http://s.example/")).count
          ("http://t.example/x") :=
  C3_amended_dedup ctxFail seedA (initState seedA) Relation.ReflTransGen.refl
    ("http://s.example/") ("http://t.example/x") none respC3
    [("http://s.example/")] noIgnore (by decide) (by decide) (by decide) rfl

/-- Witness for the amended C9 on a concrete href list: a fragment href, an
unresolvable href, and the outputs of a mixed list. -/
theorem C9_amended_witness :
    (strStarts ("#top") ("#") = true →
        extractLinks (("#top") :: [("/x")]) ("http://a.example/")
          = extractLinks [("/x")] ("http://a.example/")) ∧
    (urlResolve ("#top") ("http://a.example/") = none →
        extractLinks (("#top") :: [("/x")]) ("http://a.example/")
          = extractLinks [("/x")] ("http://a.example/")) ∧
    (∀ r ∈ extractLinks [("/x"), ("httpx://evil.example/x")] ("http://a.example/"),
        strStarts r ("http") = true ∧
        ∃ h₁ ∈ [("/x"), ("httpx://evil.example/x")],
          ¬ strStarts h₁ ("#") = true ∧ urlResolve h₁ ("http://a.example/") = some r) :=
  C9_amended_extraction [("/x"), ("httpx://evil.example/x")] [("/x")]
    ("http://a.example/") ("#top")
